import Mathlib

/-!
# tunnel-chat: verification of the session-lifecycle and rendezvous spec

Shallow embedding of the tunnel-chat repository's peer connection
lifecycle manager (`src/cli/peer.ts`, class `TunnelPeer`) and its
rendezvous/signaling servers (`src/server/server.ts`,
`src/server/combined-server.ts`).

Stateful TypeScript methods become pure Lean functions from an explicit
state record to an updated state plus a list of observable effects
(callbacks invoked, frames sent, timers scheduled).  Timers are modelled
as booleans ("armed") or as `Option Nat` deadlines; wall-clock instants
are naturals (milliseconds), and the join-retry arithmetic — which the
source computes with `Math.pow(1.4, attempt)` — is carried out exactly
in `ℚ` with `1.4 = 7/5`.
-/

namespace TunnelChat

/-! ## Peer model — `src/cli/peer.ts` -/

namespace Peer

/-- `INACTIVITY_MS` (peer.ts line 31): idle timeout, default `2 * 60 * 1000`. -/
def INACTIVITY_MS : Nat := 2 * 60 * 1000

/-- `WATCH_CONNECT_MS` (peer.ts line 32): connect watchdog delay, default 12 s. -/
def WATCH_CONNECT_MS : Nat := 12000

/-- `KEEPALIVE_MISS_MAX` (peer.ts line 91): consecutive keepalive misses before a restart. -/
def KEEPALIVE_MISS_MAX : Nat := 3

/-- `CTRL_PREFIX` (peer.ts line 25): sentinel byte marking keepalive/control frames. -/
def sentinel : String := "\x00"

/-- Payload of an inbound data-channel message: `ev.data` is either a
string or binary data (peer.ts `wireChannel`, lines 160–166). -/
inductive DCData
  | text (s : String)
  | binary
deriving Repr, DecidableEq

/-- Observable effects of one handler invocation: UI callbacks fired,
frames pushed into the data channel, control messages sent over the
rendezvous connection, and transport operations requested. -/
inductive Effect
  | onMessage (text : String)    -- opts.onMessage(text)
  | onCloseEvt                   -- opts.onClose()
  | onStatusEvt (text : String)  -- opts.onStatus(text)
  | dcSend (payload : String)    -- dc.send(payload)
  | wsJoin                       -- safeSend {type: 'join', name}
  | wsCreate                     -- safeSend {type: 'create', name, sdp}
  | iceRestartCall               -- restartIce(): createOffer({iceRestart:true}) + signaling
deriving Repr, DecidableEq, BEq

/-- The mutable fields of class `TunnelPeer` that the claims are about.
Each `NodeJS.Timeout` field is modelled as a `Bool` ("a timer is
pending"), except the inactivity timer, whose scheduled fire time
matters and is an `Option Nat`.  `dcReadyState` is `none` while no data
channel exists, otherwise `some rs` with `rs` the channel's readyState
string. -/
structure PeerState where
  disposed : Bool
  isConnected : Bool
  hasRemoteOffer : Bool
  iceRestarted : Bool
  joinActive : Bool
  joinTimer : Bool
  connectWatch : Bool
  kaTimer : Bool
  kaTimeout : Bool
  kaMisses : Nat
  turnGatherTimer : Bool
  inactivityDeadline : Option Nat
  lastActivityAt : Nat
  wsReconnects : Nat
  dcReadyState : Option String
deriving Repr, DecidableEq

/-- `onActivity` (peer.ts lines 390–397): clear any pending inactivity
timer and arm a fresh one `INACTIVITY_MS` from now.  `lastActivityAt`
is the ghost timestamp of this reset (the spec's name for it). -/
def onActivity (now : Nat) (s : PeerState) : PeerState :=
  { s with lastActivityAt := now, inactivityDeadline := some (now + INACTIVITY_MS) }

/-- `handleControl` (peer.ts line 362): `PING` is answered with a `PONG`
frame; `PONG` clears the keepalive response timeout and the miss
counter.  Neither touches the inactivity timer. -/
def handleControl (cmd : String) (s : PeerState) : PeerState × List Effect :=
  if cmd = "PING" then (s, [Effect.dcSend (sentinel ++ "PONG")])
  else if cmd = "PONG" then ({ s with kaTimeout := false, kaMisses := 0 }, [])
  else (s, [])

/-- `dc.onmessage` of `wireChannel` (peer.ts lines 160–166): a string
payload starting with the sentinel is routed to `handleControl` and
returns before `onActivity`; any other payload bumps activity and is
delivered to the app, binary data as the literal string "[binary]". -/
def dcMessage (now : Nat) (d : DCData) (s : PeerState) : PeerState × List Effect :=
  match d with
  | DCData.text t =>
      if t.startsWith sentinel then handleControl (t.drop 1) s
      else (onActivity now s, [Effect.onMessage t])
  | DCData.binary => (onActivity now s, [Effect.onMessage "[binary]"])

/-- `send` (peer.ts lines 381–388): transmit only when
`dc?.readyState === 'open'`; on success bump activity and return
`true`, otherwise return `false` with no effect. -/
def send (now : Nat) (text : String) (s : PeerState) :
    PeerState × List Effect × Bool :=
  if s.dcReadyState = some "open" then
    (onActivity now s, [Effect.dcSend text], true)
  else (s, [], false)

/-- `close` (peer.ts lines 399–409): sets `disposed`, clears the TURN
gather timer, runs `stopJoinLoop`, `stopKeepalive`, `clearWatch`,
closes channel/transport/socket, and fires `opts.onClose()`.  Nothing
in the body reads `disposed`, and the inactivity timer is not
cleared. -/
def close (s : PeerState) : PeerState × List Effect :=
  ({ s with
      disposed := true,
      turnGatherTimer := false,
      joinActive := false, joinTimer := false,
      kaTimer := false, kaTimeout := false, kaMisses := 0,
      connectWatch := false,
      dcReadyState := s.dcReadyState.map (fun _ => "closed") },
   [Effect.onCloseEvt])

/-- The connect watchdog's timeout callback (peer.ts lines 331–339,
`startConnectWatch`).  Firing consumes the armed timer; if the session
is connected or disposed nothing happens; otherwise, exactly when
`iceRestarted` is still false, it is set, `restartIce()` runs, and
`startConnectWatch()` re-arms the watchdog once. -/
def watchFire (s : PeerState) : PeerState × List Effect :=
  let s0 := { s with connectWatch := false }
  if s0.isConnected ∨ s0.disposed then (s0, [])
  else if s0.iceRestarted = false then
    ({ s0 with iceRestarted := true, connectWatch := true },
     [Effect.onStatusEvt "connection slow, attempting ICE restart…",
      Effect.iceRestartCall])
  else (s0, [])

/-- `n` successive watchdog firings, accumulating effects. -/
def watchRun : Nat → PeerState → PeerState × List Effect
  | 0, s => (s, [])
  | n + 1, s =>
      let p := watchFire s
      let q := watchRun n p.1
      (q.1, p.2 ++ q.2)

/-- The `close` handler of the rendezvous WebSocket (peer.ts lines
182–187, `connectWS`): no reconnect once disposed or connected;
otherwise schedule `connectWS` after `min(2000 + wsReconnects*500,
4000)` ms and increment the counter.  The scheduled delay is returned
as `some d`. -/
def wsOnClose (s : PeerState) : PeerState × Option Nat :=
  if s.disposed ∨ s.isConnected then (s, none)
  else
    ({ s with wsReconnects := s.wsReconnects + 1 },
     some (min (2000 + s.wsReconnects * 500) 4000))

/-- The `open` handler of the rendezvous WebSocket (peer.ts lines
174–179): a successful open resets the reconnect counter. -/
def wsOnOpen (s : PeerState) : PeerState := { s with wsReconnects := 0 }

/-- `sendPing` of `startKeepalive` (peer.ts lines 347–358): when the
channel is open, push a sentinel `PING` frame and arm the keepalive
response timeout.  `onActivity` is never called here. -/
def kaPing (s : PeerState) : PeerState × List Effect :=
  if s.dcReadyState = some "open" then
    ({ s with kaTimeout := true }, [Effect.dcSend (sentinel ++ "PING")])
  else (s, [])

/-- The keepalive response timeout callback (peer.ts lines 350–357):
one more miss; at `KEEPALIVE_MISS_MAX` misses request an ICE restart
and reset the counter.  The inactivity timer is untouched. -/
def kaTimeoutFire (s : PeerState) : PeerState × List Effect :=
  let m := s.kaMisses + 1
  if KEEPALIVE_MISS_MAX ≤ m then
    ({ s with kaMisses := 0, kaTimeout := false },
     [Effect.onStatusEvt "peer unresponsive, trying ICE restart…",
      Effect.iceRestartCall])
  else ({ s with kaMisses := m, kaTimeout := false }, [])

/-- An event observable by a connected session, for the idle-timer
invariant: an inbound data-channel message, an application `send`
call, a keepalive interval tick, or a keepalive response timeout. -/
inductive PEvent
  | dcRecv (d : DCData)
  | sendCall (text : String)
  | kaTick
  | kaMissFire
deriving Repr

/-- Dispatch one timestamped event to the corresponding handler. -/
def step (now : Nat) (e : PEvent) (s : PeerState) : PeerState × List Effect :=
  match e with
  | PEvent.dcRecv d => dcMessage now d s
  | PEvent.sendCall t => ((send now t s).1, (send now t s).2.1)
  | PEvent.kaTick => kaPing s
  | PEvent.kaMissFire => kaTimeoutFire s

/-- Run a trace of timestamped events. -/
def runTrace (tr : List (Nat × PEvent)) (s : PeerState) : PeerState :=
  tr.foldl (fun st p => (step p.1 p.2 st).1) s

/-- The idle-timer invariant: the pending idle deadline is exactly
`lastActivityAt + INACTIVITY_MS`. -/
def IdleInv (s : PeerState) : Prop :=
  s.inactivityDeadline = some (s.lastActivityAt + INACTIVITY_MS)

/-! ### Join-retry loop — `startJoinLoop` (peer.ts lines 301–326)

Delays are computed by the source as
`Math.min(JOIN_RETRY_BASE_MS * Math.pow(1.4, attempt), 2000)`; we carry
this arithmetic exactly in `ℚ`.  Real timers may fire late, so the gap
between consecutive ticks is the computed delay plus a nonnegative
slack chosen by the scheduler. -/

/-- `JOIN_RETRY_TOTAL_MS` (peer.ts line 33), as an exact rational. -/
def JOIN_RETRY_TOTAL_MS : ℚ := 15000

/-- `JOIN_RETRY_BASE_MS` (peer.ts line 34). -/
def JOIN_RETRY_BASE_MS : ℚ := 600

/-- The delay scheduled after the `attempt`-th join resend
(peer.ts line 317): `min(600 * 1.4^attempt, 2000)`. -/
def joinDelay (attempt : Nat) : ℚ :=
  min (JOIN_RETRY_BASE_MS * (7 / 5 : ℚ) ^ attempt) 2000

/-- The times (elapsed ms since `joinStart`) at which `tick` sends a
`join` message, in a run where no offer ever arrives, the transport
never connects, and the session is not disposed (so the guard on
line 308 always passes).  One tick: if `elapsed > JOIN_RETRY_TOTAL_MS`,
send one final join and stop (lines 310–315); otherwise send a join and
re-arm the timer after `joinDelay attempt` plus the scheduler's slack
(lines 316–321).  `fuel` bounds the recursion; every run from the
initial state finishes within the fuel we supply (proved below). -/
def joinSends (slack : Nat → ℚ) : Nat → ℚ → Nat → List ℚ
  | fuel, elapsed, attempt =>
    if JOIN_RETRY_TOTAL_MS < elapsed then [elapsed]
    else
      match fuel with
      | 0 => []
      | f + 1 =>
          elapsed :: joinSends slack f (elapsed + joinDelay attempt + slack attempt) (attempt + 1)

/-- Control-connection lifecycle events for the reconnect policy. -/
inductive WsEvt
  | openEvt
  | closeEvt
deriving Repr, DecidableEq

/-- Run a sequence of control-connection events, collecting the
reconnect delays the code schedules. -/
def wsRun : List WsEvt → PeerState → PeerState × List Nat
  | [], s => (s, [])
  | WsEvt.openEvt :: r, s => wsRun r (wsOnOpen s)
  | WsEvt.closeEvt :: r, s =>
      let p := wsOnClose s
      let q := wsRun r p.1
      (q.1, p.2.toList ++ q.2)

/-- The reconnect schedule in the spec's own words: each close (while
pre-connection) reconnects after `min(2000 + reconnectCount*500, 4000)`
ms of a counter that increments per close and resets to zero on each
successful open.  Stated for refinement against `wsRun`. -/
def reconnectDelaysSpec : List WsEvt → Nat → List Nat
  | [], _ => []
  | WsEvt.openEvt :: r, _ => reconnectDelaysSpec r 0
  | WsEvt.closeEvt :: r, n =>
      min (2000 + n * 500) 4000 :: reconnectDelaysSpec r (n + 1)

/-- Dispatching one event preserves the idle-timer invariant: every
branch either leaves `lastActivityAt`/`inactivityDeadline` untouched or
routes through `onActivity`, which re-establishes it. -/
theorem step_idle_inv (now : Nat) (e : PEvent) (s : PeerState)
    (h : IdleInv s) : IdleInv (step now e s).1 := by
  cases e with
  | dcRecv d =>
      cases d with
      | text t =>
          by_cases hp : t.startsWith sentinel
          · simp only [step, dcMessage, hp, if_pos]
            unfold handleControl
            split_ifs <;> simpa [IdleInv] using h
          · simp [step, dcMessage, hp, onActivity, IdleInv]
      | binary => simp [step, dcMessage, onActivity, IdleInv]
  | sendCall t =>
      by_cases ho : s.dcReadyState = some "open"
      · simp [step, send, ho, onActivity, IdleInv]
      · simpa [step, send, ho, IdleInv] using h
  | kaTick =>
      simp only [step]
      unfold kaPing
      split_ifs <;> simpa [IdleInv] using h
  | kaMissFire =>
      simp only [step]
      unfold kaTimeoutFire
      by_cases hm : KEEPALIVE_MISS_MAX ≤ s.kaMisses + 1 <;>
        simpa [hm, IdleInv] using h

/-- A fire of the watchdog on a session that already performed its one
restart does nothing but consume the (re-armed) timer. -/
theorem watchFire_after_restart (s : PeerState) (hc : s.isConnected = false)
    (hd : s.disposed = false) (hr : s.iceRestarted = true) :
    watchFire s = ({ s with connectWatch := false }, []) := by
  simp [watchFire, hc, hd, hr]

/-- Any number of watchdog firings after the one restart produce no
further `restartIce` call. -/
theorem watchRun_no_restart :
    ∀ (n : Nat) (s : PeerState), s.isConnected = false → s.disposed = false →
      s.iceRestarted = true →
      (watchRun n s).2.count Effect.iceRestartCall = 0 := by
  intro n
  induction n with
  | zero => intro s _ _ _; rfl
  | succ n ih =>
      intro s hc hd hr
      simp only [watchRun]
      rw [watchFire_after_restart s hc hd hr]
      simpa using ih { s with connectWatch := false } (by simpa) (by simpa) (by simpa)

end Peer

/-! ## Rendezvous service, single-peer — `src/server/server.ts` -/

namespace Sig

/-- One live room (server.ts `RoomRecord`, lines 7–15).  The owner's
control connection is identified by a connection id; the TTL timer
handle itself carries no state we need beyond the room's existence. -/
structure Room where
  offerSDP : String
  offerSocket : Nat
  createdAt : Nat
deriving Repr, DecidableEq

/-- Server state: the live-room map `rooms` and the `pendingWaiters`
map, both keyed by room name (server.ts lines 26–28), modelled as
association lists whose `lookup` mirrors `Map.get`. -/
structure SrvState where
  rooms : List (String × Room)
  waiters : List (String × List Nat)
deriving Repr, DecidableEq

/-- Messages the server sends back over control connections. -/
inductive OutMsg
  | created (name : String)
  | offerMsg (name sdp : String)
  | notFound (name : String)
  | answerMsg (name sdp : String)
  | okMsg
  | errorMsg (code : String)
  | candMsg (name cand : String)
deriving Repr, DecidableEq, BEq

/-- Externally visible actions of one handler run: a message sent to a
connection, or a connection closed by the server. -/
inductive Eff
  | sendTo (conn : Nat) (m : OutMsg)
  | closeConn (conn : Nat)
deriving Repr, DecidableEq, BEq

/-- Inbound control messages (the `type` dispatch of the `ws.on('message')`
handler, server.ts lines 92–164). -/
inductive Msg
  | create (name sdp : String)
  | join (name : String)
  | answer (name sdp : String)
  | candidate (name cand : String)
  | unknown
deriving Repr, DecidableEq

/-- `Map.set` on an association list: replace any existing binding. -/
def setEntry {α : Type} (k : String) (v : α) (m : List (String × α)) :
    List (String × α) :=
  (k, v) :: m.filter (fun p => p.1 ≠ k)

/-- `Map.delete` on an association list. -/
def eraseEntry {α : Type} (k : String) (m : List (String × α)) :
    List (String × α) :=
  m.filter (fun p => p.1 ≠ k)

/-- `deleteRoom` (server.ts lines 77–82): clear the TTL timer and drop
the room from the map.  Nothing else. -/
def deleteRoom (name : String) (st : SrvState) : SrvState :=
  { st with rooms := eraseEntry name st.rooms }

/-- The TTL timer callback armed at room creation (server.ts line 100):
`setTimeout(() => deleteRoom(name), TTL_MS)`.  Its entire body is the
`deleteRoom` call, so it produces no sends and closes no connection. -/
def ttlFire (name : String) (st : SrvState) : SrvState × List Eff :=
  (deleteRoom name st, [])

/-- `Set.add` of a waiter connection (server.ts lines 139–140). -/
def addWaiter (name : String) (conn : Nat) (w : List (String × List Nat)) :
    List (String × List Nat) :=
  match w.lookup name with
  | none => setEntry name [conn] w
  | some set => if conn ∈ set then w else setEntry name (set ++ [conn]) w

/-- Removing one waiter, dropping the name when its set empties
(server.ts lines 136, 138). -/
def removeWaiter (name : String) (conn : Nat) (w : List (String × List Nat)) :
    List (String × List Nat) :=
  match w.lookup name with
  | none => w
  | some set =>
      let s2 := set.filter (fun c => c ≠ conn)
      if s2.isEmpty then eraseEntry name w else setEntry name s2 w

/-- The join-wait timeout armed when a joiner arrives before the creator
(server.ts lines 134–137): send `not_found` to the waiter and remove it
from `pendingWaiters`. -/
def joinWaitFire (name : String) (conn : Nat) (st : SrvState) :
    SrvState × List Eff :=
  ({ st with waiters := removeWaiter name conn st.waiters },
   [Eff.sendTo conn (OutMsg.notFound name)])

/-- The control-message handler (server.ts lines 84–165), one branch per
message `type`.  `conn` is the sender's connection id, `now` the
current time used for `createdAt`.  Field-presence checks
(`missing_fields`) are subsumed by the typed `Msg`. -/
def process (conn : Nat) (now : Nat) (msg : Msg) (st : SrvState) :
    SrvState × List Eff :=
  match msg with
  | Msg.create name sdp =>
      if (st.rooms.lookup name).isSome then
        (st, [Eff.sendTo conn (OutMsg.errorMsg "room_exists")])
      else
        let flushed :=
          match st.waiters.lookup name with
          | none => []
          | some set => set.map (fun w => Eff.sendTo w (OutMsg.offerMsg name sdp))
        ({ rooms := setEntry name ⟨sdp, conn, now⟩ st.rooms,
           waiters := eraseEntry name st.waiters },
         Eff.sendTo conn (OutMsg.created name) :: flushed)
  | Msg.join name =>
      match st.rooms.lookup name with
      | some rec => (st, [Eff.sendTo conn (OutMsg.offerMsg name rec.offerSDP)])
      | none => ({ st with waiters := addWaiter name conn st.waiters }, [])
  | Msg.answer name sdp =>
      match st.rooms.lookup name with
      | none => (st, [Eff.sendTo conn (OutMsg.notFound name)])
      | some rec =>
          (deleteRoom name st,
           [Eff.sendTo rec.offerSocket (OutMsg.answerMsg name sdp),
            Eff.sendTo conn OutMsg.okMsg])
  | Msg.candidate name cand =>
      match st.rooms.lookup name with
      | some rec => (st, [Eff.sendTo rec.offerSocket (OutMsg.candMsg name cand)])
      | none => (st, [])
  | Msg.unknown => (st, [Eff.sendTo conn (OutMsg.errorMsg "unknown_type")])

end Sig

/-! ## Rendezvous service, hub mode — `src/server/combined-server.ts` -/

namespace Hub

/-- A room of the combined server (combined-server.ts `RoomRecord`,
lines 85–97): single-peer rooms carry the stored offer, multi rooms a
`peerId → joiner connection` map. -/
structure CRoom where
  offerSDP : Option String
  offerSocket : Nat
  createdAt : Nat
  multi : Bool
  joiners : List (String × Nat)
deriving Repr, DecidableEq

/-- Combined-server signaling state. -/
structure HubState where
  rooms : List (String × CRoom)
deriving Repr, DecidableEq

/-- Messages the combined server sends back; `peerId` rides along as an
optional routing key (combined-server.ts lines 1377–1392). -/
inductive HOut
  | created (name : String) (multi : Bool)
  | offerMsg (name : String) (peerId : Option String) (sdp : String)
  | notFound (name : String)
  | answerMsg (name : String) (peerId : Option String) (sdp : String)
  | okMsg
  | errorMsg (code : String)
  | joinRequest (name peerId : String)
deriving Repr, DecidableEq, BEq

/-- Externally visible actions. -/
inductive HEff
  | sendTo (conn : Nat) (m : HOut)
deriving Repr, DecidableEq, BEq

/-- `create_multi` handler (combined-server.ts lines 1314–1333): gated
on a valid API key; registers a room with `multi: true`, an empty
joiner map and no stored offer, then replies `created{multi:true}`. -/
def createMulti (keys : List String) (conn now : Nat) (name key : String)
    (st : HubState) : HubState × List HEff :=
  if key ∉ keys then (st, [HEff.sendTo conn (HOut.errorMsg "pro_required")])
  else if (st.rooms.lookup name).isSome then
    (st, [HEff.sendTo conn (HOut.errorMsg "room_exists")])
  else
    ({ rooms := Sig.setEntry name ⟨none, conn, now, true, []⟩ st.rooms },
     [HEff.sendTo conn (HOut.created name true)])

/-- `answer` handler (combined-server.ts lines 1377–1392): unknown room
gets `not_found`; a multi room relays the answer (with its `peerId`) to
the owner and replies `ok`, leaving the room map untouched; a
single-peer room relays and then `deleteRoom`s. -/
def processAnswer (conn : Nat) (name sdp : String) (peerId : Option String)
    (st : HubState) : HubState × List HEff :=
  match st.rooms.lookup name with
  | none => (st, [HEff.sendTo conn (HOut.notFound name)])
  | some rec =>
      if rec.multi then
        (st, [HEff.sendTo rec.offerSocket (HOut.answerMsg name peerId sdp),
              HEff.sendTo conn HOut.okMsg])
      else
        ({ rooms := Sig.eraseEntry name st.rooms },
         [HEff.sendTo rec.offerSocket (HOut.answerMsg name none sdp),
          HEff.sendTo conn HOut.okMsg])

end Hub

/-! ## Helper lemmas on the association-list map operations -/

theorem Sig.lookup_eraseEntry {α : Type} (k : String) (m : List (String × α)) :
    (Sig.eraseEntry k m).lookup k = none := by
  induction m with
  | nil => rfl
  | cons p r ih =>
      by_cases h : p.1 = k
      · simpa [Sig.eraseEntry, List.filter_cons, h] using ih
      · have hk : (k == p.1) = false := beq_eq_false_iff_ne.mpr (Ne.symm h)
        simpa [Sig.eraseEntry, List.filter_cons, h, List.lookup, hk] using ih

theorem Sig.lookup_setEntry_self {α : Type} (k : String) (v : α)
    (m : List (String × α)) : (Sig.setEntry k v m).lookup k = some v := by
  simp [Sig.setEntry, List.lookup]

/-! ## Claims -/

/-- Concrete mid-session state used to exhibit the behaviour of `close`:
connected, keepalive armed, idle timer pending at 125000 ms. -/
def c1State : Peer.PeerState :=
  { disposed := false, isConnected := true, hasRemoteOffer := true,
    iceRestarted := false, joinActive := false, joinTimer := false,
    connectWatch := false, kaTimer := true, kaTimeout := true, kaMisses := 1,
    turnGatherTimer := false, inactivityDeadline := some 125000,
    lastActivityAt := 5000, wsReconnects := 0, dcReadyState := some "open" }

/-- C1 counterexample: `close()` is not guarded by `disposed`.  Calling
it twice on a live session fires `onClose` twice (the claim demands
exactly one), and even a single `close()` leaves the pending idle timer
armed (the claim says the idle timer is cancelled). -/
theorem c1_close_counterexample :
    ((Peer.close c1State).2
        ++ (Peer.close (Peer.close c1State).1).2).count Peer.Effect.onCloseEvt = 2
    ∧ (Peer.close c1State).1.inactivityDeadline = some 125000 := by
  constructor <;> rfl

/-- C1 (amended): `close()` is idempotent on the session *state* — a
second call changes nothing further, and the timer-clearing calls are
harmless to repeat — but each call emits its own `onClose` event (the
body never checks `disposed`), and the idle timer is not among the
timers `close()` cancels: join-retry, keepalive, keepalive-timeout,
connect-watchdog and TURN-gather are cleared, the idle deadline is left
untouched. -/
theorem c1_close_amended (s : Peer.PeerState) :
    (Peer.close (Peer.close s).1).1 = (Peer.close s).1
    ∧ (Peer.close s).2 = [Peer.Effect.onCloseEvt]
    ∧ (Peer.close (Peer.close s).1).2 = [Peer.Effect.onCloseEvt]
    ∧ (Peer.close s).1.inactivityDeadline = s.inactivityDeadline
    ∧ (Peer.close s).1.joinTimer = false
    ∧ (Peer.close s).1.kaTimer = false
    ∧ (Peer.close s).1.kaTimeout = false
    ∧ (Peer.close s).1.connectWatch = false
    ∧ (Peer.close s).1.turnGatherTimer = false
    ∧ (Peer.close s).1.disposed = true := by
  refine ⟨?_, rfl, rfl, rfl, rfl, rfl, rfl, rfl, rfl, rfl⟩
  cases h : s.dcReadyState <;> simp [Peer.close, h]

/-- Concrete server state with one pending room "x" owned by connection 1. -/
def c2State : Sig.SrvState :=
  { rooms := [("x", ⟨"sdpX", 1, 0⟩)], waiters := [] }

/-- C2 counterexample: when the TTL timer fires, the room is deleted,
but the handler's effect list is empty — in particular the owner's
control connection (id 1) is *not* closed, contrary to the claim. -/
theorem c2_ttl_counterexample :
    (Sig.ttlFire "x" c2State).1.rooms.lookup "x" = none
    ∧ (Sig.ttlFire "x" c2State).2 = []
    ∧ Sig.Eff.closeConn 1 ∉ (Sig.ttlFire "x" c2State).2 := by
  refine ⟨by decide, rfl, by simp [Sig.ttlFire]⟩

/-- C2 (amended): the TTL timer callback is exactly `deleteRoom(name)`:
the room leaves the live-room map — so a later `join` finds nothing and
silently becomes a waiter instead of receiving the stale offer — but no
message is sent and no connection is closed; the owner's control
connection stays open. -/
theorem c2_ttl_amended (st : Sig.SrvState) (name : String) :
    (Sig.ttlFire name st).1.rooms.lookup name = none
    ∧ (Sig.ttlFire name st).2 = []
    ∧ ∀ conn now : Nat,
        (Sig.process conn now (Sig.Msg.join name) (Sig.ttlFire name st).1).2 = [] := by
  refine ⟨Sig.lookup_eraseEntry name st.rooms, rfl, ?_⟩
  intro conn now
  simp [Sig.process, Sig.ttlFire, Sig.deleteRoom, Sig.lookup_eraseEntry]

/-- Concrete peer state whose data channel is absent. -/
def c4NoChan : Peer.PeerState :=
  { disposed := false, isConnected := false, hasRemoteOffer := false,
    iceRestarted := false, joinActive := true, joinTimer := true,
    connectWatch := false, kaTimer := false, kaTimeout := false, kaMisses := 0,
    turnGatherTimer := false, inactivityDeadline := none,
    lastActivityAt := 0, wsReconnects := 0, dcReadyState := none }

/-- Concrete peer state with an open data channel. -/
def c4Open : Peer.PeerState :=
  { disposed := false, isConnected := true, hasRemoteOffer := true,
    iceRestarted := false, joinActive := false, joinTimer := false,
    connectWatch := false, kaTimer := true, kaTimeout := false, kaMisses := 0,
    turnGatherTimer := false, inactivityDeadline := some 120000,
    lastActivityAt := 0, wsReconnects := 0, dcReadyState := some "open" }

/-- C4: `send(text)` returns `false` with no state change and no effect
whenever the data channel is absent or not open (no exception is
modelled: the handler is a total function), and otherwise transmits the
payload, resets the idle timer to `now + INACTIVITY_MS`, and returns
`true`. -/
theorem c4_send_contract :
    (∀ (s : Peer.PeerState) (now : Nat) (t : String),
        s.dcReadyState ≠ some "open" →
          Peer.send now t s = (s, [], false))
    ∧ (∀ (s : Peer.PeerState) (now : Nat) (t : String),
        s.dcReadyState = some "open" →
          Peer.send now t s = (Peer.onActivity now s, [Peer.Effect.dcSend t], true)
          ∧ (Peer.send now t s).1.inactivityDeadline
              = some (now + Peer.INACTIVITY_MS)) := by
  constructor
  · intro s now t h
    simp [Peer.send, h]
  · intro s now t h
    simp [Peer.send, h, Peer.onActivity]

/-- C4 witness: the contract evaluated at the two concrete states. -/
theorem c4_send_contract_witness :
    Peer.send 3 "hello" c4NoChan = (c4NoChan, [], false)
    ∧ Peer.send 7 "hello" c4Open
        = (Peer.onActivity 7 c4Open, [Peer.Effect.dcSend "hello"], true) :=
  ⟨c4_send_contract.1 c4NoChan 3 "hello" (by decide),
   (c4_send_contract.2 c4Open 7 "hello" rfl).1⟩

/-- C10: a non-string (binary) data-channel payload is delivered to the
application as the literal string "[binary]" and counts as genuine
activity: the idle deadline is re-armed at `now + INACTIVITY_MS`. -/
theorem c10_binary_message_delivery (s : Peer.PeerState) (now : Nat) :
    Peer.dcMessage now Peer.DCData.binary s
      = (Peer.onActivity now s, [Peer.Effect.onMessage "[binary]"])
    ∧ (Peer.dcMessage now Peer.DCData.binary s).1.inactivityDeadline
        = some (now + Peer.INACTIVITY_MS)
    ∧ (Peer.dcMessage now Peer.DCData.binary s).1.lastActivityAt = now :=
  ⟨rfl, rfl, rfl⟩

/-- C3: over every sequence of sends/receives/keepalive events, the
idle deadline stays equal to `lastActivityAt + INACTIVITY_MS`
(part 1); keepalive frames — sentinel-prefixed inbound strings,
keepalive interval ticks and keepalive response timeouts — never
change `lastActivityAt` or the idle deadline (parts 2–3); every
genuine application message — non-sentinel inbound string, binary
payload, or successful `send` — sets `lastActivityAt` to the current
time and re-arms the idle deadline (parts 4–6). -/
theorem c3_idle_timer_invariant :
    (∀ (tr : List (Nat × Peer.PEvent)) (s : Peer.PeerState),
        Peer.IdleInv s → Peer.IdleInv (Peer.runTrace tr s))
    ∧ (∀ (s : Peer.PeerState) (now : Nat) (t : String),
        t.startsWith Peer.sentinel →
          (Peer.dcMessage now (Peer.DCData.text t) s).1.lastActivityAt
              = s.lastActivityAt
          ∧ (Peer.dcMessage now (Peer.DCData.text t) s).1.inactivityDeadline
              = s.inactivityDeadline)
    ∧ (∀ s : Peer.PeerState,
        (Peer.kaPing s).1.lastActivityAt = s.lastActivityAt
        ∧ (Peer.kaPing s).1.inactivityDeadline = s.inactivityDeadline
        ∧ (Peer.kaTimeoutFire s).1.lastActivityAt = s.lastActivityAt
        ∧ (Peer.kaTimeoutFire s).1.inactivityDeadline = s.inactivityDeadline)
    ∧ (∀ (s : Peer.PeerState) (now : Nat) (t : String),
        ¬ t.startsWith Peer.sentinel →
          (Peer.dcMessage now (Peer.DCData.text t) s).1.lastActivityAt = now
          ∧ (Peer.dcMessage now (Peer.DCData.text t) s).1.inactivityDeadline
              = some (now + Peer.INACTIVITY_MS))
    ∧ (∀ (s : Peer.PeerState) (now : Nat),
        (Peer.dcMessage now Peer.DCData.binary s).1.lastActivityAt = now)
    ∧ (∀ (s : Peer.PeerState) (now : Nat) (t : String),
        s.dcReadyState = some "open" →
          (Peer.send now t s).1.lastActivityAt = now
          ∧ (Peer.send now t s).1.inactivityDeadline
              = some (now + Peer.INACTIVITY_MS)) := by
  refine ⟨?_, ?_, ?_, ?_, ?_, ?_⟩
  · intro tr
    induction tr with
    | nil => intro s h; exact h
    | cons p r ih =>
        intro s h
        exact ih _ (Peer.step_idle_inv p.1 p.2 s h)
  · intro s now t hp
    constructor <;>
      · simp only [Peer.dcMessage, hp, if_pos]
        unfold Peer.handleControl
        split_ifs <;> rfl
  · intro s
    refine ⟨?_, ?_, ?_, ?_⟩ <;>
      · first
        | (unfold Peer.kaPing; split_ifs <;> rfl)
        | (unfold Peer.kaTimeoutFire
           by_cases hm : Peer.KEEPALIVE_MISS_MAX ≤ s.kaMisses + 1 <;> simp [hm])
  · intro s now t hp
    simp [Peer.dcMessage, hp, Peer.onActivity]
  · intro s now
    rfl
  · intro s now t ho
    simp [Peer.send, ho, Peer.onActivity]

/-- Concrete just-connected state for the idle-invariant witness. -/
def c3Init : Peer.PeerState :=
  { disposed := false, isConnected := true, hasRemoteOffer := true,
    iceRestarted := false, joinActive := false, joinTimer := false,
    connectWatch := false, kaTimer := true, kaTimeout := false, kaMisses := 0,
    turnGatherTimer := false, inactivityDeadline := some (1000 + Peer.INACTIVITY_MS),
    lastActivityAt := 1000, wsReconnects := 0, dcReadyState := some "open" }

/-- C3 witness: the trace invariant evaluated on a concrete trace that
mixes keepalive frames, a chat message and a send. -/
theorem c3_idle_timer_invariant_witness :
    Peer.IdleInv (Peer.runTrace
      [(1500, Peer.PEvent.dcRecv (Peer.DCData.text "\x00PING")),
       (2000, Peer.PEvent.dcRecv (Peer.DCData.text "hello")),
       (2500, Peer.PEvent.kaTick),
       (3000, Peer.PEvent.sendCall "hi")] c3Init) :=
  c3_idle_timer_invariant.1 _ c3Init rfl

/-- Concrete joiner state right after the offer arrived: watchdog
armed, no restart performed yet. -/
def c6State : Peer.PeerState :=
  { disposed := false, isConnected := false, hasRemoteOffer := true,
    iceRestarted := false, joinActive := false, joinTimer := false,
    connectWatch := true, kaTimer := false, kaTimeout := false, kaMisses := 0,
    turnGatherTimer := false, inactivityDeadline := none,
    lastActivityAt := 0, wsReconnects := 0, dcReadyState := none }

/-- C6: from a not-connected, not-disposed state that has not restarted
yet, any positive number of watchdog firings produces exactly one
`restartIce` call; the first firing performs the restart, marks
`iceRestarted`, and re-arms the watchdog once; every later firing does
nothing. -/
theorem c6_watchdog_single_restart (s : Peer.PeerState) (n : Nat)
    (hc : s.isConnected = false) (hd : s.disposed = false)
    (hr : s.iceRestarted = false) :
    (Peer.watchRun (n + 1) s).2.count Peer.Effect.iceRestartCall = 1
    ∧ (Peer.watchFire s).1.connectWatch = true
    ∧ (Peer.watchFire s).1.iceRestarted = true := by
  have hfire : Peer.watchFire s =
      ({ s with iceRestarted := true, connectWatch := true },
       [Peer.Effect.onStatusEvt "connection slow, attempting ICE restart…",
        Peer.Effect.iceRestartCall]) := by
    simp [Peer.watchFire, hc, hd, hr]
  refine ⟨?_, by rw [hfire], by rw [hfire]⟩
  simp only [Peer.watchRun]
  rw [hfire]
  have hrest := Peer.watchRun_no_restart n
      { s with iceRestarted := true, connectWatch := true }
      (by simpa) (by simpa) (by simp)
  simp [List.count_append, hrest, List.count_cons]
  decide

/-- C6 witness: three successive firings on the concrete post-offer
state still yield a single restart. -/
theorem c6_watchdog_single_restart_witness :
    (Peer.watchRun 3 c6State).2.count Peer.Effect.iceRestartCall = 1
    ∧ (Peer.watchFire c6State).1.connectWatch = true
    ∧ (Peer.watchFire c6State).1.iceRestarted = true :=
  c6_watchdog_single_restart c6State 2 rfl rfl rfl

/-- C8: the rendezvous-client reconnect policy.  While neither disposed
nor connected, a close schedules a reconnect after exactly
`min(2000 + wsReconnects*500, 4000)` ms and increments the counter
(part 1); once disposed or connected, a close schedules nothing
(part 2); a successful open resets the counter to zero (part 3); and
over any event sequence in the pre-connection regime, the full list of
scheduled delays equals the spec's schedule `reconnectDelaysSpec`
(part 4). -/
theorem c8_ws_reconnect_policy :
    (∀ s : Peer.PeerState, s.disposed = false → s.isConnected = false →
        Peer.wsOnClose s
          = ({ s with wsReconnects := s.wsReconnects + 1 },
             some (min (2000 + s.wsReconnects * 500) 4000)))
    ∧ (∀ s : Peer.PeerState, s.disposed = true ∨ s.isConnected = true →
        Peer.wsOnClose s = (s, none))
    ∧ (∀ s : Peer.PeerState, (Peer.wsOnOpen s).wsReconnects = 0)
    ∧ (∀ (tr : List Peer.WsEvt) (s : Peer.PeerState),
        s.disposed = false → s.isConnected = false →
        (Peer.wsRun tr s).2 = Peer.reconnectDelaysSpec tr s.wsReconnects) := by
  have hclose : ∀ s : Peer.PeerState, s.disposed = false → s.isConnected = false →
      Peer.wsOnClose s
        = ({ s with wsReconnects := s.wsReconnects + 1 },
           some (min (2000 + s.wsReconnects * 500) 4000)) := by
    intro s hd hc
    simp [Peer.wsOnClose, hd, hc]
  refine ⟨hclose, ?_, fun s => rfl, ?_⟩
  · intro s h
    rcases h with h | h <;> simp [Peer.wsOnClose, h]
  · intro tr
    induction tr with
    | nil => intro s _ _; rfl
    | cons e r ih =>
        intro s hd hc
        cases e with
        | openEvt =>
            have := ih (Peer.wsOnOpen s) (by simpa [Peer.wsOnOpen] using hd)
              (by simpa [Peer.wsOnOpen] using hc)
            simpa [Peer.wsRun, Peer.reconnectDelaysSpec, Peer.wsOnOpen] using this
        | closeEvt =>
            have hnext := ih { s with wsReconnects := s.wsReconnects + 1 }
              (by simpa) (by simpa)
            simp only [Peer.wsRun, Peer.reconnectDelaysSpec]
            rw [hclose s hd hc]
            simpa using hnext

/-- Pre-connection state with two reconnects already counted. -/
def c8State : Peer.PeerState :=
  { disposed := false, isConnected := false, hasRemoteOffer := false,
    iceRestarted := false, joinActive := true, joinTimer := true,
    connectWatch := false, kaTimer := false, kaTimeout := false, kaMisses := 0,
    turnGatherTimer := false, inactivityDeadline := none,
    lastActivityAt := 0, wsReconnects := 2, dcReadyState := none }

/-- C8 witness: a close at reconnect count 2 schedules exactly
`min(2000 + 2*500, 4000) = 3000` ms, and a close-close-open-close trace
follows the spec schedule. -/
theorem c8_ws_reconnect_policy_witness :
    Peer.wsOnClose c8State
      = ({ c8State with wsReconnects := 3 }, some 3000)
    ∧ (Peer.wsRun [Peer.WsEvt.closeEvt, Peer.WsEvt.closeEvt,
        Peer.WsEvt.openEvt, Peer.WsEvt.closeEvt] c8State).2
      = Peer.reconnectDelaysSpec [Peer.WsEvt.closeEvt, Peer.WsEvt.closeEvt,
          Peer.WsEvt.openEvt, Peer.WsEvt.closeEvt] 2 := by
  constructor
  · have := c8_ws_reconnect_policy.1 c8State rfl rfl
    simpa using this
  · exact c8_ws_reconnect_policy.2.2.2 _ c8State rfl rfl

/-- Every computed join-retry delay is at least the base delay of
600 ms — the geometric factor `1.4^attempt` is at least one, and the
2000 ms cap is above the base. -/
theorem Peer.joinDelay_ge (k : Nat) : (600 : ℚ) ≤ Peer.joinDelay k := by
  unfold Peer.joinDelay Peer.JOIN_RETRY_BASE_MS
  refine le_min ?_ (by norm_num)
  have h1 : (1 : ℚ) ≤ (7 / 5 : ℚ) ^ k := one_le_pow₀ (by norm_num)
  nlinarith

/-- Shape of any join-retry run with enough fuel: the sent times form
`l ++ [t]` where every non-final send happens at elapsed time at most
`JOIN_RETRY_TOTAL_MS` and the single final send strictly after it —
after which the recursion (the loop) has stopped. -/
theorem Peer.joinSends_shape (slack : Nat → ℚ) (hs : ∀ i, 0 ≤ slack i) :
    ∀ (fuel : Nat) (elapsed : ℚ) (attempt : Nat),
      Peer.JOIN_RETRY_TOTAL_MS < 600 * fuel + elapsed →
      ∃ l t, Peer.joinSends slack fuel elapsed attempt = l ++ [t]
        ∧ Peer.JOIN_RETRY_TOTAL_MS < t
        ∧ ∀ x ∈ l, x ≤ Peer.JOIN_RETRY_TOTAL_MS := by
  intro fuel
  induction fuel with
  | zero =>
      intro elapsed attempt h
      have hlt : Peer.JOIN_RETRY_TOTAL_MS < elapsed := by
        simpa using h
      refine ⟨[], elapsed, ?_, hlt, by simp⟩
      simp [Peer.joinSends, hlt]
  | succ f ih =>
      intro elapsed attempt h
      by_cases hlt : Peer.JOIN_RETRY_TOTAL_MS < elapsed
      · refine ⟨[], elapsed, ?_, hlt, by simp⟩
        simp [Peer.joinSends, hlt]
      · have hle : elapsed ≤ Peer.JOIN_RETRY_TOTAL_MS := le_of_not_lt hlt
        have hnext : Peer.JOIN_RETRY_TOTAL_MS
            < 600 * f + (elapsed + Peer.joinDelay attempt + slack attempt) := by
          have hd := Peer.joinDelay_ge attempt
          have hsl := hs attempt
          have : (600 : ℚ) * (f + 1) + elapsed = 600 * f + elapsed + 600 := by ring
          push_cast at h ⊢
          linarith
        obtain ⟨l, t, heq, ht, hl⟩ := ih (elapsed + Peer.joinDelay attempt + slack attempt)
          (attempt + 1) hnext
        refine ⟨elapsed :: l, t, ?_, ht, ?_⟩
        · simp only [Peer.joinSends, if_neg hlt]
          rw [heq]
          rfl
        · intro x hx
          rcases List.mem_cons.mp hx with hx | hx
          · exact hx ▸ hle
          · exact hl x hx

/-- C5: in a joiner run where no offer arrives, the transport never
connects and the session is not disposed, the join loop (for any
nonnegative per-tick timer slack) sends at least one `join`, all but
the last send happen at elapsed time at most `JOIN_RETRY_TOTAL_MS`, and
the single final send happens strictly after `JOIN_RETRY_TOTAL_MS`
elapsed, after which the loop has stopped and sends nothing more (the
run is the whole send list).  Fuel 26 is enough: each tick advances
elapsed time by at least 600 ms. -/
theorem c5_join_loop_termination (slack : Nat → ℚ) (hs : ∀ i, 0 ≤ slack i) :
    ∃ l t, Peer.joinSends slack 26 0 0 = l ++ [t]
      ∧ Peer.JOIN_RETRY_TOTAL_MS < t
      ∧ (∀ x ∈ l, x ≤ Peer.JOIN_RETRY_TOTAL_MS)
      ∧ Peer.joinSends slack 26 0 0 ≠ [] := by
  obtain ⟨l, t, heq, ht, hl⟩ := Peer.joinSends_shape slack hs 26 0 0
    (by norm_num [Peer.JOIN_RETRY_TOTAL_MS])
  exact ⟨l, t, heq, ht, hl, by simp [heq]⟩

/-- C5 witness: the termination shape evaluated with exact timers
(zero slack). -/
theorem c5_join_loop_termination_witness :
    ∃ l t, Peer.joinSends (fun _ => 0) 26 0 0 = l ++ [t]
      ∧ Peer.JOIN_RETRY_TOTAL_MS < t
      ∧ (∀ x ∈ l, x ≤ Peer.JOIN_RETRY_TOTAL_MS)
      ∧ Peer.joinSends (fun _ => 0) 26 0 0 ≠ [] :=
  c5_join_loop_termination (fun _ => 0) (fun _ => le_refl 0)

/-- C7: single-peer room lifecycle around `answer`.
Part 1: `create{name}` on a free name stores the room with the sent
sdp, owner and creation time.  Part 2: while the room is pending, a
`join{name}` replies with the stored offer and leaves the state
unchanged.  Part 3: an `answer{name}` relays the answer to the room's
owner, acks the sender, and deletes the room immediately.  Part 4: a
`join{name}` once the room is gone sends nothing immediately (the
joiner becomes a waiter), and its join-wait timeout then delivers
`not_found`. -/
theorem c7_room_answer_lifecycle :
    (∀ (st : Sig.SrvState) (conn now : Nat) (name sdp : String),
        st.rooms.lookup name = none →
          (Sig.process conn now (Sig.Msg.create name sdp) st).1.rooms.lookup name
            = some ⟨sdp, conn, now⟩)
    ∧ (∀ (st : Sig.SrvState) (conn now : Nat) (name : String) (rec : Sig.Room),
        st.rooms.lookup name = some rec →
          Sig.process conn now (Sig.Msg.join name) st
            = (st, [Sig.Eff.sendTo conn (Sig.OutMsg.offerMsg name rec.offerSDP)]))
    ∧ (∀ (st : Sig.SrvState) (conn now : Nat) (name sdp : String) (rec : Sig.Room),
        st.rooms.lookup name = some rec →
          Sig.process conn now (Sig.Msg.answer name sdp) st
            = (Sig.deleteRoom name st,
               [Sig.Eff.sendTo rec.offerSocket (Sig.OutMsg.answerMsg name sdp),
                Sig.Eff.sendTo conn Sig.OutMsg.okMsg])
          ∧ (Sig.deleteRoom name st).rooms.lookup name = none)
    ∧ (∀ (st : Sig.SrvState) (conn now : Nat) (name : String),
        st.rooms.lookup name = none →
          (Sig.process conn now (Sig.Msg.join name) st).2 = []
          ∧ ∀ st2 : Sig.SrvState,
              (Sig.joinWaitFire name conn st2).2
                = [Sig.Eff.sendTo conn (Sig.OutMsg.notFound name)]) := by
  refine ⟨?_, ?_, ?_, ?_⟩
  · intro st conn now name sdp h
    simp [Sig.process, h, Sig.lookup_setEntry_self]
  · intro st conn now name rec h
    simp [Sig.process, h]
  · intro st conn now name sdp rec h
    exact ⟨by simp [Sig.process, h], Sig.lookup_eraseEntry name st.rooms⟩
  · intro st conn now name h
    exact ⟨by simp [Sig.process, h], fun st2 => rfl⟩

/-- Concrete single-peer server state: room "x" pending, owned by
connection 1, sdp "S". -/
def c7St : Sig.SrvState := { rooms := [("x", ⟨"S", 1, 0⟩)], waiters := [] }

/-- C7 witness: join sees the stored offer; answer relays to owner 1,
acks sender 2 and deletes the room; a join after the deletion gets no
offer. -/
theorem c7_room_answer_lifecycle_witness :
    Sig.process 2 5 (Sig.Msg.join "x") c7St
      = (c7St, [Sig.Eff.sendTo 2 (Sig.OutMsg.offerMsg "x" "S")])
    ∧ Sig.process 2 6 (Sig.Msg.answer "x" "A") c7St
      = (Sig.deleteRoom "x" c7St,
         [Sig.Eff.sendTo 1 (Sig.OutMsg.answerMsg "x" "A"),
          Sig.Eff.sendTo 2 Sig.OutMsg.okMsg])
    ∧ (Sig.process 3 7 (Sig.Msg.join "x") (Sig.deleteRoom "x" c7St)).2 = [] :=
  ⟨c7_room_answer_lifecycle.2.1 c7St 2 5 "x" ⟨"S", 1, 0⟩ (by decide),
   (c7_room_answer_lifecycle.2.2.1 c7St 2 6 "x" "A" ⟨"S", 1, 0⟩ (by decide)).1,
   (c7_room_answer_lifecycle.2.2.2 (Sig.deleteRoom "x" c7St) 3 7 "x" (by decide)).1⟩

/-- C9: in hub mode, an `answer{name, sdp, peerId}` for a multi room
relays the answer, with its `peerId`, to the owner connection and acks
the sender, while the room map — and the room's record — are left
completely unchanged: the room stays matchable. -/
theorem c9_multi_answer_preserves_room
    (st : Hub.HubState) (conn : Nat) (name sdp : String)
    (peerId : Option String) (rec : Hub.CRoom)
    (h : st.rooms.lookup name = some rec) (hm : rec.multi = true) :
    Hub.processAnswer conn name sdp peerId st
      = (st, [Hub.HEff.sendTo rec.offerSocket (Hub.HOut.answerMsg name peerId sdp),
              Hub.HEff.sendTo conn Hub.HOut.okMsg])
    ∧ (Hub.processAnswer conn name sdp peerId st).1.rooms.lookup name
        = some rec := by
  have heq : Hub.processAnswer conn name sdp peerId st
      = (st, [Hub.HEff.sendTo rec.offerSocket (Hub.HOut.answerMsg name peerId sdp),
              Hub.HEff.sendTo conn Hub.HOut.okMsg]) := by
    simp [Hub.processAnswer, h, hm]
  exact ⟨heq, by rw [heq]; exact h⟩

/-- Concrete hub state holding the multi room "room" registered by
`create_multi` from connection 1 with valid key "k". -/
def c9St : Hub.HubState := (Hub.createMulti ["k"] 1 0 "room" "k" ⟨[]⟩).1

/-- C9 witness: answering the multi room relays to owner 1 with the
peer id and leaves the room in place. -/
theorem c9_multi_answer_preserves_room_witness :
    Hub.processAnswer 5 "room" "A" (some "p1") c9St
      = (c9St, [Hub.HEff.sendTo 1 (Hub.HOut.answerMsg "room" (some "p1") "A"),
                Hub.HEff.sendTo 5 Hub.HOut.okMsg])
    ∧ (Hub.processAnswer 5 "room" "A" (some "p1") c9St).1.rooms.lookup "room"
        = some ⟨none, 1, 0, true, []⟩ :=
  c9_multi_answer_preserves_room c9St 5 "room" "A" (some "p1")
    ⟨none, 1, 0, true, []⟩ (by decide) rfl

end TunnelChat
